import Mathlib

/-!
Verification development for the Mulatschak online card-game server.

The server logic lives in the Go websocket hub.  The repository carries
several variants of that hub; the definitions below embed, on one hand, the
richest variant (the one implementing the start/cut/bidding/pick_trump/
exchange/play phases with the talon and swamp piles, `src/unnamed/part_004`)
and, on the other hand, the trick-engine helpers `hasSuit`, `followsSuit`
and `trickWinner` from `src/server/internal/ws/hub.go`.

Conventions of the embedding:
  * Go `int` is `Int`; Go `%` on ints is `Int.tmod` (both truncate).
  * Go maps with `int` keys (`Hands`, `Passed`, `Stayed`, `Acted`) are total
    functions with the Go zero value (`[]` / `false`) as default; map writes
    are `Function.update`.
  * Go slices of cards are `List Card`; a `nil` slice is `[]`.
  * `strings.ToLower` is `strLower` (the cards only carry ASCII names).
  * `shuffle` calls are modelled by an explicit function parameter `sh`
    (respectively by quantifying over the shuffled list), since the Go code
    draws randomness from the environment.
-/

/-- Lowercasing of ASCII strings: models Go `strings.ToLower` as used on
suit/rank names. -/
def strLower (s : String) : String := ⟨s.data.map Char.toLower⟩

/-- A playing card; `Suit`/`Rank` are the lowercase English names used by the
server (`"hearts"`, …, `"ace"`, …, `"weli"`). -/
structure Card where
  Suit : String
  Rank : String
deriving DecidableEq, Repr

/-- The per-table state of the hub variant with the exchange phase
(struct `Room` in `src/unnamed/part_004`).  Connection bookkeeping
(`Conns`) is out of scope; all game fields are kept. -/
structure Room where
  ID : String
  Seats : Int
  PlayerIDs : Int → String
  Hands : Int → List Card
  Lead : String
  Trick : List Card
  TrickBy : List Int
  Turn : Int
  HandOver : Bool
  Trump : String
  Started : Bool
  Dealer : Int
  FirstBidder : Int
  Phase : String
  Actor : Int
  BestBid : Int
  BestBy : Int
  Passed : Int → Bool
  RoundDouble : Bool
  Stayed : Int → Bool
  Acted : Int → Bool
  CutPeek : Card
  HasCutPeek : Bool
  WeliKeptBy : Int
  stock : List Card
  swamp : List Card
  swampShuffled : Bool
  exchangeMax : Int
  exchangeClosed : Bool

/-- Embeds `buildMulatschakDeck` (src/unnamed/part_004): 4 suits x 8 ranks plus the
Weli. -/
def buildMulatschakDeck : List Card :=
  let ranks := ["ace", "king", "ober", "unter", "ten", "nine", "eight", "seven"]
  let suits := ["hearts", "spades", "clubs", "diamonds"]
  (suits.flatMap (fun s => ranks.map (fun r => ⟨s, r⟩))) ++ [⟨"diamonds", "weli"⟩]

/-- Embeds `isWeli` (src/unnamed/part_004). -/
def isWeli (c : Card) : Bool :=
  strLower c.Rank == "weli" ||
    (strLower c.Suit == "diamonds" && (strLower c.Rank == "six" || strLower c.Rank == "6"))

/-- Embeds `nextSeat` (src/unnamed/part_004). -/
def nextSeat (room : Room) (s : Int) : Int :=
  if room.Seats = 0 then s else (s + 1).tmod room.Seats

/-- Eligibility test used by `nextActiveBidder`: occupied and not passed. -/
def bidEligible (room : Room) (s : Int) : Bool :=
  room.PlayerIDs s != "" && !room.Passed s

/-- Loop body of `nextActiveBidder`: tries `i = i0, i0+1, …` while fuel
lasts, each time probing seat `(fro + i) % Seats`. -/
def nextActiveBidderAux (room : Room) (fro : Int) : Nat → Int → Int
  | 0, _ => fro
  | fuel + 1, i =>
    if bidEligible room ((fro + i).tmod room.Seats) then (fro + i).tmod room.Seats
    else nextActiveBidderAux room fro fuel (i + 1)

/-- Embeds `nextActiveBidder` (src/unnamed/part_004): the first occupied, unpassed
seat after `fro` in seat order, or `fro` when none exists. -/
def nextActiveBidder (room : Room) (fro : Int) : Int :=
  nextActiveBidderAux room fro room.Seats.toNat 1

/-- Eligibility test used by `nextInSeat`: occupied and not stayed. -/
def inPlayEligible (room : Room) (s : Int) : Bool :=
  room.PlayerIDs s != "" && !room.Stayed s

/-- Loop body of `nextInSeat`. -/
def nextInSeatAux (room : Room) (fro : Int) : Nat → Int → Int
  | 0, _ => fro
  | fuel + 1, i =>
    if inPlayEligible room ((fro + i).tmod room.Seats) then (fro + i).tmod room.Seats
    else nextInSeatAux room fro fuel (i + 1)

/-- Embeds `nextInSeat` (src/unnamed/part_004): next occupied, non-stayed seat. -/
def nextInSeat (room : Room) (fro : Int) : Int :=
  nextInSeatAux room fro room.Seats.toNat 1

/-- Embeds `countInPlayers` (src/unnamed/part_004): occupied, non-stayed seats. -/
def countInPlayers (room : Room) : Nat :=
  ((List.range room.Seats.toNat).filter (fun s => inPlayEligible room ((s : Int)))).length

/-- The active-seat count computed inside the `"pass"` case, after marking
the passing seat: occupied seats not in `passed'`. -/
def countActive (room : Room) (passed' : Int → Bool) : Nat :=
  ((List.range room.Seats.toNat).filter
    (fun s => room.PlayerIDs ((s : Int)) != "" && !passed' ((s : Int)))).length

/-- Actor-advance loop of the `"pass"` case: starts at `nextSeat(Actor)` and
steps at most `Seats` times looking for an occupied seat not in `passed'`. -/
def passAdvanceAux (room : Room) (passed' : Int → Bool) : Nat → Int → Int
  | 0, adv => adv
  | fuel + 1, adv =>
    if !passed' adv && room.PlayerIDs adv != "" then adv
    else passAdvanceAux room passed' fuel (nextSeat room adv)

/-- Embeds `startExchange` (src/unnamed/part_004). -/
def startExchange (room : Room) : Room :=
  { room with Phase := "exchange", Actor := room.BestBy, exchangeClosed := false,
              Stayed := fun _ => false, Acted := fun _ => false }

/-- The auction-end resolution of the `"pass"` case: `room` carries the
pre-pass `BestBid`/`BestBy`, `r1` is the state with the pass recorded. -/
def passResolve (room : Room) (r1 : Room) : Room :=
  if room.BestBid = 1 then startExchange { r1 with Actor := room.BestBy, Trump := "hearts" }
  else { r1 with Actor := room.BestBy, Phase := "pick_trump" }

/-- The state with the pass recorded: the seat is marked passed and the
actor advanced to the next unpassed occupied seat. -/
def passMark (room : Room) (seat : Int) : Room :=
  { room with Passed := Function.update room.Passed seat true,
              Actor := passAdvanceAux room (Function.update room.Passed seat true)
                room.Seats.toNat (nextSeat room room.Actor) }

/-- Embeds `handleMessage` case `"pass"` (src/unnamed/part_004).  Note the guard:
the phase must be `bidding` and the seat must not have passed already; the
seat is *not* compared with `Actor`. -/
def handlePass (room : Room) (seat : Int) : Room :=
  if room.Phase = "bidding" ∧ ¬room.Passed seat then
    if countActive room (Function.update room.Passed seat true) = 1 ∧ room.BestBy ≠ -1 then
      passResolve room (passMark room seat)
    else passMark room seat
  else room

/-- Embeds `handleMessage` case `"bid"` (src/unnamed/part_004). -/
def handleBid (room : Room) (seat : Int) (bid : Int) : Room :=
  if room.Phase = "bidding" ∧ seat = room.Actor then
    if 1 ≤ bid ∧ bid ≤ 5 ∧ bid > room.BestBid then
      { room with BestBid := bid, BestBy := seat, Actor := nextActiveBidder room seat }
    else room
  else room

/-- The card-matching test of the exchange/move handlers: the handler
lowercases the incoming card's fields, then compares them with the lowercased
fields of a hand card. -/
def cardMatches (req : Card) (hc : Card) : Bool :=
  strLower hc.Suit == strLower req.Suit && strLower hc.Rank == strLower req.Rank

/-- Find-and-remove of the first hand card satisfying `p`, returning that
card and the remaining hand.  This embeds the Go idiom of scanning for the
first matching index and splicing it out. -/
def findRemove (p : Card → Bool) : List Card → Option (Card × List Card)
  | [] => none
  | c :: cs =>
    if p c then some (c, cs)
    else (findRemove p cs).map (fun r => (r.1, c :: r.2))

/-- Discard loop of the `"exchange"` case: for each requested card, the
first matching hand card (if any) moves from the hand to the back of the
swamp; requests without a match are skipped. -/
def discardAll : List Card × List Card → List Card → List Card × List Card
  | (hand, swamp), [] => (hand, swamp)
  | (hand, swamp), c :: rest =>
    match findRemove (cardMatches c) hand with
    | none => discardAll (hand, swamp) rest
    | some (x, hand') => discardAll (hand', swamp ++ [x]) rest

/-- Replacement-draw loop: `drawFrom need pile hand` pops the front of
`pile` onto the back of `hand` while `need > 0` and the pile is nonempty;
returns the new hand, the remaining pile and the remaining need. -/
def drawFrom : Nat → List Card → List Card → List Card × List Card × Nat
  | 0, pile, hand => (hand, pile, 0)
  | need + 1, [], hand => (hand, [], need + 1)
  | need + 1, c :: pile, hand => drawFrom need pile (hand ++ [c])

/-- Search loop of `advanceExchangeOrStartPlay`: from `nxt`, step through at
most `fuel` seats looking for an occupied seat that has not acted. -/
def advExAux (room : Room) : Nat → Int → Option Int
  | 0, _ => none
  | fuel + 1, nxt =>
    if room.PlayerIDs nxt != "" && !room.Acted nxt then some nxt
    else advExAux room fuel (nextSeat room nxt)

/-- The all-acted check of `advanceExchangeOrStartPlay`: every occupied
seat has acted. -/
def allActed (room : Room) : Bool :=
  (List.range room.Seats.toNat).all
    (fun s => room.PlayerIDs ((s : Int)) == "" || room.Acted ((s : Int)))

/-- Embeds `advanceExchangeOrStartPlay` (src/unnamed/part_004). -/
def advanceExchangeOrStartPlay (room : Room) : Room :=
  if allActed room then
    { room with exchangeClosed := true, Phase := "play", Turn := room.BestBy, Started := true }
  else
    match advExAux room room.Seats.toNat (nextSeat room room.Actor) with
    | some nxt => { room with Actor := nxt }
    | none => room

/-- Second half of `exchangeDraw`: `t` is the state after the talon loop
(`t.2.2` the still-unmet need). -/
def exchangeDrawTalon (sh : List Card → List Card) (room : Room) (swamp1 : List Card)
    (t : List Card × List Card × Nat) : List Card × List Card × List Card × Bool :=
  if t.2.2 > 0 ∧ swamp1 ≠ [] then
    ((drawFrom t.2.2 (if ¬room.swampShuffled then sh swamp1 else swamp1) t.1).1,
     t.2.1,
     (drawFrom t.2.2 (if ¬room.swampShuffled then sh swamp1 else swamp1) t.1).2.1,
     true)
  else (t.1, t.2.1, swamp1, room.swampShuffled)

/-- Replacement drawing of the `"exchange"` case, after the discards:
`hand1`/`swamp1` are the post-discard hand and swamp, `n` the requested
count.  Draws come from the talon first; only a remaining need pulls from
the swamp, which is shuffled (`sh`) just once, guarded by `swampShuffled`.
Returns the new hand, talon, swamp and `swampShuffled` flag. -/
def exchangeDraw (sh : List Card → List Card) (room : Room) (hand1 swamp1 : List Card)
    (n : Nat) : List Card × List Card × List Card × Bool :=
  exchangeDrawTalon sh room swamp1 (drawFrom n room.stock hand1)

/-- The accepted-request path of the `"exchange"` case: write back the new
hand and piles, mark the seat acted, and advance. -/
def exchangeApply (sh : List Card → List Card) (room : Room) (seat : Int)
    (hand1 swamp1 : List Card) (n : Nat) : Room :=
  advanceExchangeOrStartPlay
    { room with
      Hands := Function.update room.Hands seat (exchangeDraw sh room hand1 swamp1 n).1,
      stock := (exchangeDraw sh room hand1 swamp1 n).2.1,
      swamp := (exchangeDraw sh room hand1 swamp1 n).2.2.1,
      swampShuffled := (exchangeDraw sh room hand1 swamp1 n).2.2.2,
      Acted := Function.update room.Acted seat true }

/-- Embeds `handleMessage` case `"exchange"` (src/unnamed/part_004).  `sh` stands
for the `shuffle` call on the swamp; the Go code mutates
`room.Hands[seat]` in place, embedded here as one final `Function.update`
with the accumulated hand. -/
def handleExchange (sh : List Card → List Card) (room : Room) (seat : Int)
    (cards : List Card) : Room :=
  if room.Phase = "exchange" ∧ seat = room.Actor ∧ ¬room.Acted seat ∧ ¬room.Stayed seat then
    if 1 ≤ cards.length ∧ (cards.length : Int) ≤ room.exchangeMax then
      exchangeApply sh room seat (discardAll (room.Hands seat, room.swamp) cards).1
        (discardAll (room.Hands seat, room.swamp) cards).2 cards.length
    else room
  else room

/-- The hand-emptiness check run when a trick completes: no occupied,
non-stayed seat still holds a card (under the post-move hands `hands'`). -/
def allHandsEmpty (room : Room) (hands' : Int → List Card) : Bool :=
  (List.range room.Seats.toNat).all
    (fun s => !(room.PlayerIDs ((s : Int)) != "" && !room.Stayed ((s : Int))
                  && !(hands' ((s : Int))).isEmpty))

/-- The state right after a found card is moved from the hand to the trick:
`if len(room.Trick) == 1 { room.Lead = room.Trick[0].Suit }` runs after the
append, so the lead is set exactly when the trick was empty, to the played
card's printed suit. -/
def playMid (room : Room) (seat : Int) (played : Card) (hand' : List Card) : Room :=
  { room with Hands := Function.update room.Hands seat hand',
              Trick := room.Trick ++ [played], TrickBy := room.TrickBy ++ [seat],
              Lead := if room.Trick.isEmpty then played.Suit else room.Lead,
              Turn := nextInSeat room seat }

/-- The `"move"` body once the card was found: on a completed trick the
placeholder winner `room.TrickBy[0]` takes the turn, the trick is dropped
(returned as the second component), and the hand ends if all hands are
empty. -/
def playCard (room : Room) (seat : Int) (played : Card) (hand' : List Card) :
    Room × List Card :=
  if (room.TrickBy ++ [seat]).length = countInPlayers room then
    if allHandsEmpty room (Function.update room.Hands seat hand') then
      ({ playMid room seat played hand' with
           Turn := (room.TrickBy ++ [seat]).headD 0, Trick := [], TrickBy := [], Lead := "",
           HandOver := true, Started := false, Phase := "" },
       room.Trick ++ [played])
    else
      ({ playMid room seat played hand' with
           Turn := (room.TrickBy ++ [seat]).headD 0, Trick := [], TrickBy := [], Lead := "" },
       room.Trick ++ [played])
  else (playMid room seat played hand', [])

/-- Embeds `handleMessage` case `"move"` (sub-type `play_card`,
src/unnamed/part_004), instrumented to also return the cards that leave the
table when a trick completes (the handler drops a completed trick: it is
appended to no pile).  The trick-winner computation of this variant is the
placeholder `winner := room.TrickBy[0]`. -/
def handleMoveAux (room : Room) (seat : Int) (card : Card) : Room × List Card :=
  if room.Phase = "play" ∧ seat = room.Turn ∧ ¬room.HandOver ∧ ¬room.Stayed seat then
    match findRemove (cardMatches card) (room.Hands seat) with
    | none => (room, [])
    | some (played, hand') => playCard room seat played hand'
  else (room, [])

/-- The room after a `play_card` move (src/unnamed/part_004). -/
def handleMove (room : Room) (seat : Int) (card : Card) : Room :=
  (handleMoveAux room seat card).1

/-- The seats `0 … n-1` in ascending order, as `Int` indices. -/
def seatList : Nat → List Int
  | 0 => []
  | n + 1 => seatList n ++ [(n : Int)]

/-- Round-robin order of the dealing loop of `deal`: five passes over the
seats `0 … Seats-1`. -/
def dealPairs (seats : Nat) : List Int :=
  seatList seats ++ seatList seats ++ seatList seats ++ seatList seats ++ seatList seats

/-- One step of the dealing loop: an occupied seat takes the top of the
stock (the loop's `break` on an empty stock is the no-op case here, since
an exhausted stock stays exhausted for the rest of the loop). -/
def dealStep (pids : Int → String) (acc : (Int → List Card) × List Card) (s : Int) :
    (Int → List Card) × List Card :=
  if pids s = "" then acc
  else
    match acc.2 with
    | [] => acc
    | c :: rest => (Function.update acc.1 s (acc.1 s ++ [c]), rest)

/-- The dealing loop of `deal`: five rounds over the seats, each occupied
seat taking the top of `stock0`. -/
def dealHands (room : Room) (stock0 : List Card) : (Int → List Card) × List Card :=
  (dealPairs room.Seats.toNat).foldl (dealStep room.PlayerIDs) (room.Hands, stock0)

/-- Trim an over-dealt hand back to 5 cards. -/
def dealTrim (hw1 : List Card) : List Card :=
  if hw1.length > 5 then hw1.take 5 else hw1

/-- The Weli fix-up after dealing: if the cutter reserved the Weli and it is
not in their hand, append it, then trim the hand back to 5. -/
def dealWeliFix (room : Room) (hs : (Int → List Card) × List Card) : Int → List Card :=
  if room.WeliKeptBy ≥ 0 then
    Function.update hs.1 room.WeliKeptBy
      (dealTrim (if (hs.1 room.WeliKeptBy).any isWeli then hs.1 room.WeliKeptBy
                 else hs.1 room.WeliKeptBy ++ [⟨"diamonds", "weli"⟩]))
  else hs.1

/-- Embeds `deal` (src/unnamed/part_004).  `fb` models the freshly shuffled deck
built when `room.stock == nil`; after dealing, a reserved Weli is appended
to the cutter's hand if absent and the hand is trimmed back to 5 cards. -/
def deal (fb : List Card) (room : Room) : Room :=
  { room with
    Hands := dealWeliFix room (dealHands room (if room.stock = [] then fb else room.stock)),
    stock := (dealHands room (if room.stock = [] then fb else room.stock)).2 }

/-! Trick-engine helpers from `src/server/internal/ws/hub.go`. -/

/-- Embeds `hasSuit` (hub.go): does the hand hold the led suit, counting the Weli
and all trump cards when the led suit is trump, and excluding the Weli
otherwise? -/
def hasSuit (hand : List Card) (suit trump : String) : Bool :=
  hand.any (fun x =>
    if suit == trump then x.Rank == "weli" || x.Suit == trump
    else x.Suit == suit && x.Rank != "weli")

/-- Embeds `followsSuit` (hub.go). -/
def followsSuit (c : Card) (lead trump : String) : Bool :=
  if lead == trump then c.Rank == "weli" || c.Suit == trump
  else c.Suit == lead && c.Rank != "weli"

/-- Embeds `rankVal` (hub.go); a missing key yields Go's zero value 0. -/
def rankVal : String → Int
  | "ace" => 7 | "king" => 6 | "queen" => 5 | "jack" => 4
  | "ten" => 3 | "nine" => 2 | "eight" => 1 | "seven" => 0
  | _ => 0

/-- Scoring of a card in the first `trickWinner` loop (trump pass). -/
def trumpScore (trump : String) (c : Card) : Option Int :=
  if c.Rank == "weli" || c.Suit == trump then
    some (if c.Rank == "weli" then 99
          else if c.Rank == "ace" && c.Suit == trump then 100
          else 50 + rankVal c.Rank)
  else none

/-- Scoring of a card in the second `trickWinner` loop (lead pass). -/
def leadScore (lead : String) (c : Card) : Option Int :=
  if lead != "" && c.Suit == lead && c.Rank != "weli" then some (rankVal c.Rank)
  else none

/-- Best-index scan shared by the two `trickWinner` loops: keeps the first
index whose score strictly exceeds all earlier scores, starting from
`(bestIdx, bestScore) = (-1, -1)`. -/
def scanBestAux (f : Card → Option Int) : List (Nat × Card) → Int × Int → Int × Int
  | [], acc => acc
  | (i, c) :: rest, acc =>
    match f c with
    | none => scanBestAux f rest acc
    | some sc => if sc > acc.2 then scanBestAux f rest (((i : Int)), sc) else scanBestAux f rest acc

/-- Embeds `trickWinner` (hub.go): highest trump (ace 100, Weli 99, others 50+rank)
wins; otherwise the highest non-Weli card of the lead suit; otherwise the
first card's seat. -/
def trickWinner (trick : List Card) (seatsBy : List Int) (trump lead : String) : Int :=
  let p1 := scanBestAux (trumpScore trump) trick.enum (-1, -1)
  if p1.1 ≥ 0 then seatsBy.getD p1.1.toNat 0
  else
    let p2 := scanBestAux (leadScore lead) trick.enum (-1, -1)
    let idx := if p2.1 < 0 then 0 else p2.1
    seatsBy.getD idx.toNat 0

/-- The lead-suit rule of the `"move"` case in hub.go: the first card of a
trick sets the lead, and a leading Weli makes the trump suit the lead. -/
def leadOnFirstCard (c : Card) (trump : String) : String :=
  if c.Rank == "weli" then trump else c.Suit

/-! State projection (`sendStateTo`, src/unnamed/part_004).  The Go code
serializes a JSON object per receiving client; the structure below is that
object.  Go map iteration (for the `passed`/`stayed` lists) has no fixed
order; it is modelled as ascending seat order. -/

/-- The per-seat state snapshot sent to one client. -/
structure StateMsg where
  room : String
  phase : String
  actor : Int
  dealer : Int
  firstBidder : Int
  bestBid : Int
  bestBy : Int
  passed : List Int
  roundDouble : Bool
  stayed : List Int
  cutPeek : Option Card
  turn : Int
  trump : String
  lead : String
  trick : List (Card × Int)
  you : List Card
  counts : List Nat
  talon : Nat
  swampSize : Nat
  exchangeMax : Int
  started : Bool
  handOver : Bool
  names : List String
  seat : Int
deriving DecidableEq, Repr

/-- Hand-size list, ascending over the seats. -/
def countsList (H : Int → List Card) : Nat → List Nat
  | 0 => []
  | n + 1 => countsList H n ++ [(H ((n : Int))).length]

/-- Seats for which a seat-indexed flag holds, ascending. -/
def flagList (p : Int → Bool) : Nat → List Int
  | 0 => []
  | n + 1 => flagList p n ++ (if p ((n : Int)) then [(n : Int)] else [])

/-- Display names aligned to seats (`h.names[r.PlayerIDs[s]]`). -/
def namesList (nameOf : Int → String) : Nat → List String
  | 0 => []
  | n + 1 => namesList nameOf n ++ [nameOf ((n : Int))]

/-- Embeds `sendStateTo` (src/unnamed/part_004): the snapshot for the client at
`seat`.  Other seats' hands appear only through `counts`; `cutPeek` is
populated only for the first bidder during the cut phase. -/
def sendStateTo (nameOf : Int → String) (r : Room) (seat : Int) : StateMsg :=
  { room := r.ID
    phase := r.Phase
    actor := r.Actor
    dealer := r.Dealer
    firstBidder := r.FirstBidder
    bestBid := r.BestBid
    bestBy := r.BestBy
    passed := flagList r.Passed r.Seats.toNat
    roundDouble := r.RoundDouble
    stayed := flagList r.Stayed r.Seats.toNat
    cutPeek :=
      if r.Phase = "cut" ∧ seat = r.FirstBidder ∧ r.HasCutPeek then some r.CutPeek else none
    turn := r.Turn
    trump := r.Trump
    lead := r.Lead
    trick := r.Trick.zip r.TrickBy
    you := r.Hands seat
    counts := countsList r.Hands r.Seats.toNat
    talon := r.stock.length
    swampSize := r.swamp.length
    exchangeMax := r.exchangeMax
    started := r.Started
    handOver := r.HandOver
    names := namesList nameOf r.Seats.toNat
    seat := seat }

/-! Card-conservation apparatus for the invariant claims. -/

/-- Multiset of the cards in the hands of seats `0 … n-1`. -/
def sumHands (H : Int → List Card) : Nat → Multiset Card
  | 0 => 0
  | n + 1 => sumHands H n + (H ((n : Int)) : Multiset Card)

/-- All cards on the table: hands, talon (stock), swamp and current trick. -/
def unionM (room : Room) : Multiset Card :=
  sumHands room.Hands room.Seats.toNat + (room.stock : Multiset Card)
    + (room.swamp : Multiset Card) + (room.Trick : Multiset Card)

/-- The full 33-card deck as a multiset. -/
def deckM : Multiset Card := (buildMulatschakDeck : Multiset Card)

/-- One game step after the deal, as quantified by the conservation claim:
an `exchange` request (with the swamp shuffle modelled as an arbitrary
permutation `sh`) or a `play_card` move.  The second component is a ghost
accumulator collecting the cards that leave the table when a trick
completes. -/
inductive GStep : Room × Multiset Card → Room × Multiset Card → Prop
  | exchange (r : Room) (g : Multiset Card) (sh : List Card → List Card)
      (hsh : ∀ l : List Card, ((sh l : Multiset Card)) = (l : Multiset Card))
      (seat : Int) (cards : List Card) (h0 : 0 ≤ seat) (h1 : seat < r.Seats) :
      GStep (r, g) (handleExchange sh r seat cards, g)
  | play (r : Room) (g : Multiset Card) (seat : Int) (card : Card)
      (h0 : 0 ≤ seat) (h1 : seat < r.Seats) :
      GStep (r, g) ((handleMoveAux r seat card).1, g + ((handleMoveAux r seat card).2 : Multiset Card))

/-- A room with no game in progress; concrete rooms below are updates of
this one. -/
def emptyRoom : Room :=
  { ID := "", Seats := 0, PlayerIDs := fun _ => "", Hands := fun _ => [], Lead := "",
    Trick := [], TrickBy := [], Turn := 0, HandOver := false, Trump := "", Started := false,
    Dealer := -1, FirstBidder := 0, Phase := "", Actor := -1, BestBid := 0, BestBy := -1,
    Passed := fun _ => false, RoundDouble := false, Stayed := fun _ => false,
    Acted := fun _ => false, CutPeek := ⟨"", ""⟩, HasCutPeek := false, WeliKeptBy := -1,
    stock := [], swamp := [], swampShuffled := false, exchangeMax := 3,
    exchangeClosed := false }

/-! Bookkeeping lemmas. -/

theorem findRemove_eq (p : Card → Bool) :
    ∀ (l rest : List Card) (x : Card),
      findRemove p l = some (x, rest) →
      p x = true ∧ (l : Multiset Card) = x ::ₘ (rest : Multiset Card) := by
  intro l
  induction l with
  | nil => intro rest x h; simp [findRemove] at h
  | cons c cs ih =>
    intro rest x h
    by_cases hc : p c
    · rw [findRemove, if_pos hc] at h
      obtain ⟨hx, hrest⟩ : c = x ∧ cs = rest := by
        constructor <;> (cases h; rfl)
      subst hx; subst hrest
      exact ⟨hc, rfl⟩
    · rw [findRemove, if_neg hc] at h
      cases hcs : findRemove p cs with
      | none => rw [hcs] at h; simp at h
      | some r =>
        rw [hcs] at h
        obtain ⟨hx, hrest⟩ : r.1 = x ∧ c :: r.2 = rest := by
          simpa [Option.map] using h
        obtain ⟨hp, hperm⟩ := ih r.2 r.1 hcs
        subst hx; subst hrest
        refine ⟨hp, ?_⟩
        have h1 : (↑(c :: cs) : Multiset Card) = c ::ₘ (cs : Multiset Card) := rfl
        have h2 : (↑(c :: r.2) : Multiset Card) = c ::ₘ (r.2 : Multiset Card) := rfl
        rw [h1, hperm, h2, Multiset.cons_swap]

theorem discardAll_perm :
    ∀ (cards : List Card) (hand swamp : List Card),
      ((discardAll (hand, swamp) cards).1 : Multiset Card)
          + ((discardAll (hand, swamp) cards).2 : Multiset Card)
        = (hand : Multiset Card) + (swamp : Multiset Card) := by
  intro cards
  induction cards with
  | nil => intro hand swamp; simp [discardAll]
  | cons c rest ih =>
    intro hand swamp
    rw [discardAll]
    cases hfr : findRemove (cardMatches c) hand with
    | none => exact ih hand swamp
    | some r =>
      obtain ⟨-, hperm⟩ := findRemove_eq _ hand r.2 r.1 hfr
      rw [ih r.2 (swamp ++ [r.1]), hperm, ← Multiset.singleton_add]
      have h1 : (↑(swamp ++ [r.1]) : Multiset Card) = ↑swamp + ({r.1} : Multiset Card) := by
        rw [← Multiset.coe_add, Multiset.coe_singleton]
      rw [h1]
      ac_rfl

theorem drawFrom_eq :
    ∀ (need : Nat) (pile hand : List Card),
      drawFrom need pile hand
        = (hand ++ pile.take need, pile.drop need, need - min need pile.length) := by
  intro need
  induction need with
  | zero => intro pile hand; simp [drawFrom]
  | succ n ih =>
    intro pile hand
    cases pile with
    | nil => simp [drawFrom]
    | cons c rest =>
      rw [drawFrom, ih rest (hand ++ [c])]
      simp [List.append_assoc]
      omega

theorem sumHands_congr (H H' : Int → List Card) :
    ∀ n : Nat, (∀ j : Nat, j < n → H ((j : Int)) = H' ((j : Int))) →
      sumHands H n = sumHands H' n := by
  intro n
  induction n with
  | zero => intro _; rfl
  | succ n ih =>
    intro h
    rw [sumHands, sumHands, ih (fun j hj => h j (Nat.lt_succ_of_lt hj)),
      h n (Nat.lt_succ_self n)]

theorem sumHands_update (H : Int → List Card) (k : Int) (v : List Card) :
    ∀ n : Nat, 0 ≤ k → k < (n : Int) →
      sumHands (Function.update H k v) n + (H k : Multiset Card)
        = sumHands H n + (v : Multiset Card) := by
  intro n
  induction n with
  | zero => intro h1 h2; exact absurd h1 (by omega)
  | succ n ih =>
    intro h1 h2
    by_cases hk : k = (n : Int)
    · have hofn : (n : Int) = k := by omega
      have hcong : sumHands (Function.update H k v) n = sumHands H n := by
        refine sumHands_congr _ _ n (fun j hj => ?_)
        refine Function.update_noteq (fun hja => ?_) _ _
        omega
      rw [sumHands, sumHands, hcong, hofn, Function.update_same]
      ac_rfl
    · have hk2 : k < (n : Int) := by omega
      have hup : Function.update H k v ((n : Int)) = H ((n : Int)) := by
        refine Function.update_noteq (fun hja => ?_) _ _
        omega
      rw [sumHands, sumHands, hup, add_right_comm, ih h1 hk2, add_right_comm]

theorem draw_split (need : Nat) (pile hand : List Card) :
    ((drawFrom need pile hand).1 : Multiset Card) + ((drawFrom need pile hand).2.1 : Multiset Card)
      = (hand : Multiset Card) + (pile : Multiset Card) := by
  rw [drawFrom_eq]
  rw [Multiset.coe_add, Multiset.coe_add, List.append_assoc, List.take_append_drop]

theorem advance_unionM (r : Room) : unionM (advanceExchangeOrStartPlay r) = unionM r := by
  unfold advanceExchangeOrStartPlay
  split
  · rfl
  · split <;> rfl

theorem exchangeDrawTalon_conserve (sh : List Card → List Card)
    (hsh : ∀ l : List Card, ((sh l : Multiset Card)) = (l : Multiset Card))
    (room : Room) (swamp1 : List Card) (t : List Card × List Card × Nat) :
    ((exchangeDrawTalon sh room swamp1 t).1 : Multiset Card)
        + ((exchangeDrawTalon sh room swamp1 t).2.1 : Multiset Card)
        + ((exchangeDrawTalon sh room swamp1 t).2.2.1 : Multiset Card)
      = (t.1 : Multiset Card) + (t.2.1 : Multiset Card) + (swamp1 : Multiset Card) := by
  unfold exchangeDrawTalon
  split
  · show ((drawFrom t.2.2 (if ¬room.swampShuffled then sh swamp1 else swamp1) t.1).1
        : Multiset Card) + (t.2.1 : Multiset Card)
        + ((drawFrom t.2.2 (if ¬room.swampShuffled then sh swamp1 else swamp1) t.1).2.1
            : Multiset Card)
      = (t.1 : Multiset Card) + (t.2.1 : Multiset Card) + (swamp1 : Multiset Card)
    have hswm : ((if ¬room.swampShuffled then sh swamp1 else swamp1 : List Card) : Multiset Card)
        = (swamp1 : Multiset Card) := by
      split
      · exact hsh swamp1
      · rfl
    have hup := draw_split t.2.2 (if ¬room.swampShuffled then sh swamp1 else swamp1) t.1
    calc ((drawFrom t.2.2 (if ¬room.swampShuffled then sh swamp1 else swamp1) t.1).1
            : Multiset Card) + (t.2.1 : Multiset Card)
          + ((drawFrom t.2.2 (if ¬room.swampShuffled then sh swamp1 else swamp1) t.1).2.1
              : Multiset Card)
        = (((drawFrom t.2.2 (if ¬room.swampShuffled then sh swamp1 else swamp1) t.1).1
              : Multiset Card)
            + ((drawFrom t.2.2 (if ¬room.swampShuffled then sh swamp1 else swamp1) t.1).2.1
                : Multiset Card)) + (t.2.1 : Multiset Card) := by ac_rfl
      _ = ((t.1 : Multiset Card)
            + ((if ¬room.swampShuffled then sh swamp1 else swamp1 : List Card) : Multiset Card))
            + (t.2.1 : Multiset Card) := by rw [hup]
      _ = ((t.1 : Multiset Card) + (swamp1 : Multiset Card)) + (t.2.1 : Multiset Card) := by
          rw [hswm]
      _ = (t.1 : Multiset Card) + (t.2.1 : Multiset Card) + (swamp1 : Multiset Card) := by
          ac_rfl
  · rfl

theorem exchangeDraw_conserve (sh : List Card → List Card)
    (hsh : ∀ l : List Card, ((sh l : Multiset Card)) = (l : Multiset Card))
    (room : Room) (hand1 swamp1 : List Card) (n : Nat) :
    ((exchangeDraw sh room hand1 swamp1 n).1 : Multiset Card)
        + ((exchangeDraw sh room hand1 swamp1 n).2.1 : Multiset Card)
        + ((exchangeDraw sh room hand1 swamp1 n).2.2.1 : Multiset Card)
      = (hand1 : Multiset Card) + (room.stock : Multiset Card) + (swamp1 : Multiset Card) := by
  unfold exchangeDraw
  rw [exchangeDrawTalon_conserve sh hsh room swamp1 (drawFrom n room.stock hand1),
    draw_split n room.stock hand1]

theorem exchangeApply_unionM (sh : List Card → List Card)
    (hsh : ∀ l : List Card, ((sh l : Multiset Card)) = (l : Multiset Card))
    (r : Room) (seat : Int) (hand1 swamp1 : List Card) (n : Nat)
    (h0 : 0 ≤ seat) (h1 : seat < r.Seats)
    (hcons : (hand1 : Multiset Card) + (swamp1 : Multiset Card)
      = ((r.Hands seat : List Card) : Multiset Card) + (r.swamp : Multiset Card)) :
    unionM (exchangeApply sh r seat hand1 swamp1 n) = unionM r := by
  unfold exchangeApply
  rw [advance_unionM]
  unfold unionM
  simp only
  have hsplit : ((exchangeDraw sh r hand1 swamp1 n).1 : Multiset Card)
      + ((exchangeDraw sh r hand1 swamp1 n).2.1 : Multiset Card)
      + ((exchangeDraw sh r hand1 swamp1 n).2.2.1 : Multiset Card)
      = ((r.Hands seat : List Card) : Multiset Card) + (r.stock : Multiset Card)
        + (r.swamp : Multiset Card) := by
    rw [exchangeDraw_conserve sh hsh r hand1 swamp1 n]
    calc (hand1 : Multiset Card) + (r.stock : Multiset Card) + (swamp1 : Multiset Card)
        = ((hand1 : Multiset Card) + (swamp1 : Multiset Card)) + (r.stock : Multiset Card) := by
          ac_rfl
      _ = (((r.Hands seat : List Card) : Multiset Card) + (r.swamp : Multiset Card))
            + (r.stock : Multiset Card) := by rw [hcons]
      _ = _ := by ac_rfl
  have hupd := sumHands_update r.Hands seat (exchangeDraw sh r hand1 swamp1 n).1
    r.Seats.toNat h0 (by omega)
  refine add_right_cancel (b := ((r.Hands seat : List Card) : Multiset Card)) ?_
  calc sumHands (Function.update r.Hands seat (exchangeDraw sh r hand1 swamp1 n).1) r.Seats.toNat
        + ((exchangeDraw sh r hand1 swamp1 n).2.1 : Multiset Card)
        + ((exchangeDraw sh r hand1 swamp1 n).2.2.1 : Multiset Card) + (r.Trick : Multiset Card)
        + ((r.Hands seat : List Card) : Multiset Card)
      = (sumHands (Function.update r.Hands seat (exchangeDraw sh r hand1 swamp1 n).1)
            r.Seats.toNat + ((r.Hands seat : List Card) : Multiset Card))
          + (((exchangeDraw sh r hand1 swamp1 n).2.1 : Multiset Card)
              + ((exchangeDraw sh r hand1 swamp1 n).2.2.1 : Multiset Card))
          + (r.Trick : Multiset Card) := by ac_rfl
    _ = (sumHands r.Hands r.Seats.toNat + ((exchangeDraw sh r hand1 swamp1 n).1 : Multiset Card))
          + (((exchangeDraw sh r hand1 swamp1 n).2.1 : Multiset Card)
              + ((exchangeDraw sh r hand1 swamp1 n).2.2.1 : Multiset Card))
          + (r.Trick : Multiset Card) := by rw [hupd]
    _ = sumHands r.Hands r.Seats.toNat
          + (((exchangeDraw sh r hand1 swamp1 n).1 : Multiset Card)
              + ((exchangeDraw sh r hand1 swamp1 n).2.1 : Multiset Card)
              + ((exchangeDraw sh r hand1 swamp1 n).2.2.1 : Multiset Card))
          + (r.Trick : Multiset Card) := by ac_rfl
    _ = sumHands r.Hands r.Seats.toNat
          + (((r.Hands seat : List Card) : Multiset Card) + (r.stock : Multiset Card)
              + (r.swamp : Multiset Card))
          + (r.Trick : Multiset Card) := by rw [hsplit]
    _ = sumHands r.Hands r.Seats.toNat + (r.stock : Multiset Card) + (r.swamp : Multiset Card)
          + (r.Trick : Multiset Card) + ((r.Hands seat : List Card) : Multiset Card) := by
        ac_rfl

theorem handleExchange_unionM (sh : List Card → List Card)
    (hsh : ∀ l : List Card, ((sh l : Multiset Card)) = (l : Multiset Card))
    (r : Room) (seat : Int) (cards : List Card) (h0 : 0 ≤ seat) (h1 : seat < r.Seats) :
    unionM (handleExchange sh r seat cards) = unionM r := by
  unfold handleExchange
  split
  · split
    · exact exchangeApply_unionM sh hsh r seat _ _ _ h0 h1
        (discardAll_perm cards (r.Hands seat) r.swamp)
    · rfl
  · rfl

theorem playMid_unionM (r : Room) (seat : Int) (played : Card) (hand' : List Card)
    (h0 : 0 ≤ seat) (h1 : seat < r.Seats)
    (hperm : ((r.Hands seat : List Card) : Multiset Card) = played ::ₘ (hand' : Multiset Card)) :
    unionM (playMid r seat played hand') = unionM r := by
  unfold playMid
  unfold unionM
  simp only
  have hupd := sumHands_update r.Hands seat hand' r.Seats.toNat h0 (by omega)
  have htr : ((r.Trick ++ [played] : List Card) : Multiset Card)
      = (r.Trick : Multiset Card) + ({played} : Multiset Card) := by
    rw [← Multiset.coe_add, Multiset.coe_singleton]
  have hh : (hand' : Multiset Card) + ({played} : Multiset Card)
      = ((r.Hands seat : List Card) : Multiset Card) := by
    rw [hperm, ← Multiset.singleton_add]
    ac_rfl
  refine add_right_cancel (b := ((r.Hands seat : List Card) : Multiset Card)) ?_
  calc sumHands (Function.update r.Hands seat hand') r.Seats.toNat + (r.stock : Multiset Card)
        + (r.swamp : Multiset Card) + ((r.Trick ++ [played] : List Card) : Multiset Card)
        + ((r.Hands seat : List Card) : Multiset Card)
      = (sumHands (Function.update r.Hands seat hand') r.Seats.toNat
            + ((r.Hands seat : List Card) : Multiset Card))
          + (r.stock : Multiset Card) + (r.swamp : Multiset Card)
          + ((r.Trick ++ [played] : List Card) : Multiset Card) := by ac_rfl
    _ = (sumHands r.Hands r.Seats.toNat + (hand' : Multiset Card))
          + (r.stock : Multiset Card) + (r.swamp : Multiset Card)
          + ((r.Trick : Multiset Card) + ({played} : Multiset Card)) := by rw [hupd, htr]
    _ = sumHands r.Hands r.Seats.toNat + (r.stock : Multiset Card) + (r.swamp : Multiset Card)
          + (r.Trick : Multiset Card) + ((hand' : Multiset Card) + ({played} : Multiset Card)) := by
        ac_rfl
    _ = sumHands r.Hands r.Seats.toNat + (r.stock : Multiset Card) + (r.swamp : Multiset Card)
          + (r.Trick : Multiset Card) + ((r.Hands seat : List Card) : Multiset Card) := by
        rw [hh]

theorem playCard_unionM (r : Room) (seat : Int) (played : Card) (hand' : List Card)
    (h0 : 0 ≤ seat) (h1 : seat < r.Seats)
    (hperm : ((r.Hands seat : List Card) : Multiset Card) = played ::ₘ (hand' : Multiset Card)) :
    unionM (playCard r seat played hand').1 + ((playCard r seat played hand').2 : Multiset Card)
      = unionM r := by
  have hmid := playMid_unionM r seat played hand' h0 h1 hperm
  unfold playCard
  split
  · split
    · rw [← hmid]
      unfold unionM playMid
      simp only
      rw [Multiset.coe_nil, add_zero]
    · rw [← hmid]
      unfold unionM playMid
      simp only
      rw [Multiset.coe_nil, add_zero]
  · rw [Multiset.coe_nil, add_zero]
    exact hmid

theorem handleMoveAux_unionM (r : Room) (seat : Int) (card : Card)
    (h0 : 0 ≤ seat) (h1 : seat < r.Seats) :
    unionM (handleMoveAux r seat card).1 + ((handleMoveAux r seat card).2 : Multiset Card)
      = unionM r := by
  unfold handleMoveAux
  split
  · cases hfr : findRemove (cardMatches card) (r.Hands seat) with
    | none => rw [Multiset.coe_nil, add_zero]
    | some pr =>
      obtain ⟨played, hand'⟩ := pr
      obtain ⟨-, hperm⟩ := findRemove_eq _ _ hand' played hfr
      exact playCard_unionM r seat played hand' h0 h1 hperm
  · rw [Multiset.coe_nil, add_zero]

theorem dealSteps_sum (pids : Int → String) (n : Nat) :
    ∀ (l : List Int) (H : Int → List Card) (st : List Card),
      (∀ s ∈ l, 0 ≤ s ∧ s < (n : Int)) →
      sumHands (l.foldl (dealStep pids) (H, st)).1 n
          + ((l.foldl (dealStep pids) (H, st)).2 : Multiset Card)
        = sumHands H n + (st : Multiset Card) := by
  intro l
  induction l with
  | nil => intro H st _; rfl
  | cons s rest ih =>
    intro H st h
    rw [List.foldl_cons]
    obtain ⟨hs0, hs1⟩ := h s (List.mem_cons_self s rest)
    have hrest : ∀ x ∈ rest, 0 ≤ x ∧ x < (n : Int) :=
      fun x hx => h x (List.mem_cons_of_mem s hx)
    by_cases hp : pids s = ""
    · rw [show dealStep pids (H, st) s = (H, st) from by rw [dealStep, if_pos hp]]
      exact ih H st hrest
    · cases st with
      | nil =>
        rw [show dealStep pids (H, []) s = (H, []) from by simp [dealStep, hp]]
        exact ih H [] hrest
      | cons c st' =>
        rw [show dealStep pids (H, c :: st') s = (Function.update H s (H s ++ [c]), st') from by
          simp [dealStep, hp]]
        rw [ih (Function.update H s (H s ++ [c])) st' hrest]
        have hupd := sumHands_update H s (H s ++ [c]) n hs0 hs1
        have happ : ((H s ++ [c] : List Card) : Multiset Card)
            = ((H s : List Card) : Multiset Card) + ({c} : Multiset Card) := by
          rw [← Multiset.coe_add, Multiset.coe_singleton]
        have hcons : ((c :: st' : List Card) : Multiset Card)
            = ({c} : Multiset Card) + (st' : Multiset Card) := by
          rw [← Multiset.coe_singleton, Multiset.coe_add]
          rfl
        rw [hcons]
        refine add_right_cancel (b := ((H s : List Card) : Multiset Card)) ?_
        calc sumHands (Function.update H s (H s ++ [c])) n + (st' : Multiset Card)
              + ((H s : List Card) : Multiset Card)
            = (sumHands (Function.update H s (H s ++ [c])) n
                  + ((H s : List Card) : Multiset Card)) + (st' : Multiset Card) := by ac_rfl
          _ = (sumHands H n + ((H s ++ [c] : List Card) : Multiset Card))
                + (st' : Multiset Card) := by rw [hupd]
          _ = sumHands H n + (((H s : List Card) : Multiset Card) + ({c} : Multiset Card))
                + (st' : Multiset Card) := by rw [happ]
          _ = sumHands H n + (({c} : Multiset Card) + (st' : Multiset Card))
                + ((H s : List Card) : Multiset Card) := by ac_rfl

theorem seatList_mem : ∀ (n : Nat) (s : Int), s ∈ seatList n → 0 ≤ s ∧ s < (n : Int) := by
  intro n
  induction n with
  | zero => intro s hs; simp [seatList] at hs
  | succ n ih =>
    intro s hs
    rw [seatList, List.mem_append] at hs
    cases hs with
    | inl h => have := ih s h; omega
    | inr h =>
      rw [List.mem_singleton] at h
      subst h
      constructor <;> omega

theorem dealPairs_mem (n : Nat) : ∀ s ∈ dealPairs n, 0 ≤ s ∧ s < (n : Int) := by
  intro s hs
  unfold dealPairs at hs
  repeat rw [List.mem_append] at hs
  rcases hs with ((((h | h) | h) | h) | h) <;> exact seatList_mem n s h

theorem deal_unionM (fb : List Card) (room : Room) (hW : room.WeliKeptBy = -1)
    (hs : room.stock ≠ []) : unionM (deal fb room) = unionM room := by
  unfold deal
  rw [if_neg hs]
  unfold dealWeliFix
  rw [if_neg (by omega : ¬room.WeliKeptBy ≥ 0)]
  unfold unionM dealHands
  simp only
  have := dealSteps_sum room.PlayerIDs room.Seats.toNat (dealPairs room.Seats.toNat)
    room.Hands room.stock (dealPairs_mem room.Seats.toNat)
  calc sumHands ((dealPairs room.Seats.toNat).foldl (dealStep room.PlayerIDs)
          (room.Hands, room.stock)).1 room.Seats.toNat
        + (((dealPairs room.Seats.toNat).foldl (dealStep room.PlayerIDs)
            (room.Hands, room.stock)).2 : Multiset Card)
        + (room.swamp : Multiset Card) + (room.Trick : Multiset Card)
      = (sumHands room.Hands room.Seats.toNat + (room.stock : Multiset Card))
        + (room.swamp : Multiset Card) + (room.Trick : Multiset Card) := by rw [this]
    _ = _ := by ac_rfl

theorem gstep_preserve (p q : Room × Multiset Card) (h : GStep p q)
    (hp : unionM p.1 + p.2 = deckM) : unionM q.1 + q.2 = deckM := by
  cases h with
  | exchange r g sh hsh seat cards h0 h1 =>
    show unionM (handleExchange sh r seat cards) + g = deckM
    rw [handleExchange_unionM sh hsh r seat cards h0 h1]
    exact hp
  | play r g seat card h0 h1 =>
    show unionM (handleMoveAux r seat card).1
        + (g + ((handleMoveAux r seat card).2 : Multiset Card)) = deckM
    have hm := handleMoveAux_unionM r seat card h0 h1
    calc unionM (handleMoveAux r seat card).1
          + (g + ((handleMoveAux r seat card).2 : Multiset Card))
        = (unionM (handleMoveAux r seat card).1
            + ((handleMoveAux r seat card).2 : Multiset Card)) + g := by ac_rfl
      _ = unionM r + g := by rw [hm]
      _ = deckM := hp

/-- A 3-seat fully occupied room just after a cut whose bottom card was not
the Weli: the stock is one full deck, the hands, swamp and trick empty. -/
def c1Room : Room :=
  { emptyRoom with
    Seats := 3,
    PlayerIDs := fun s => if s = 0 then "p0" else if s = 1 then "p1" else
      if s = 2 then "p2" else "",
    Phase := "cut", stock := buildMulatschakDeck }

/-- A 2-seat fully occupied room just after a cut whose bottom card was the
Weli: `performCut` reserved it for the cutter (seat 0, `WeliKeptBy = 0`)
and removed it from the deck, so the stock holds the other 32 cards. -/
def c1xRoom : Room :=
  { emptyRoom with
    Seats := 2,
    PlayerIDs := fun s => if s = 0 then "p0" else if s = 1 then "p1" else "",
    Phase := "cut", WeliKeptBy := 0,
    stock := buildMulatschakDeck.filter (fun c => !isWeli c) }

/-- Claim C1, counterexample: when the cut reserved the Weli
(`WeliKeptBy ≥ 0`), `deal` appends the Weli to a full 5-card hand and then
trims the hand back to its first 5 cards, dropping the Weli itself.  In the
concrete post-cut room `c1xRoom` the pre-deal cards are exactly one deck
(stock plus the reserved Weli), yet right after the deal the Weli is in no
hand and no pile, and the union of hands, talon, swamp and trick is not a
33-card deck — contradicting the claim at a state reached directly after
the deal. -/
theorem deal_drops_reserved_weli :
    unionM c1xRoom + ({(⟨"diamonds", "weli"⟩ : Card)} : Multiset Card) = deckM ∧
    Multiset.count (⟨"diamonds", "weli"⟩ : Card) (unionM (deal [] c1xRoom)) = 0 ∧
    unionM (deal [] c1xRoom) ≠ deckM := by decide

/-- Claim C1 (corrected): after a deal in which the cut did not reserve the
Weli, the multiset union of all seats' hands, the talon, the swamp and the
current trick is exactly one 33-card deck, and along any sequence of
exchange and play_card operations the union plus the ghost multiset of
cards dropped with completed tricks stays exactly one 33-card deck (so the
union itself is the deck minus the completed tricks' cards; the
exchange-phase operations preserve it outright).  When the cut reserved the
Weli, the deal loses the Weli (see the counterexample). -/
theorem mulatschak_card_conservation (room : Room) (fb : List Card)
    (hW : room.WeliKeptBy = -1) (hs : room.stock ≠ [])
    (hU : unionM room = deckM) (q : Room × Multiset Card)
    (hreach : Relation.ReflTransGen GStep (deal fb room, (0 : Multiset Card)) q) :
    unionM q.1 + q.2 = deckM := by
  have hbase : unionM (deal fb room) + (0 : Multiset Card) = deckM := by
    rw [add_zero, deal_unionM fb room hW hs, hU]
  induction hreach with
  | refl => exact hbase
  | tail _ hstep ih => exact gstep_preserve _ _ hstep ih

/-- Claim C1 witness: the conservation theorem applied to a concrete 3-seat
post-cut room holding one full deck, at the state right after the deal. -/
theorem mulatschak_card_conservation_witness :
    c1Room.WeliKeptBy = -1 ∧ c1Room.stock ≠ [] ∧ unionM c1Room = deckM ∧
      unionM (deal [] c1Room) + (0 : Multiset Card) = deckM :=
  ⟨rfl, by decide, by decide,
    mulatschak_card_conservation c1Room [] rfl (by decide) (by decide)
      (deal [] c1Room, 0) Relation.ReflTransGen.refl⟩

theorem nextActiveBidderAux_first (room : Room) (fro : Int) :
    ∀ (fuel : Nat) (i : Int) (k : Nat), k < fuel →
      bidEligible room ((fro + (i + (k : Int))).tmod room.Seats) = true →
      (∀ j : Nat, j < k → bidEligible room ((fro + (i + (j : Int))).tmod room.Seats) = false) →
      nextActiveBidderAux room fro fuel i = (fro + (i + (k : Int))).tmod room.Seats := by
  intro fuel
  induction fuel with
  | zero => intro i k hk; exact absurd hk (by omega)
  | succ fuel ih =>
    intro i k hk he hmin
    rw [nextActiveBidderAux]
    by_cases h0 : bidEligible room ((fro + i).tmod room.Seats) = true
    · rw [if_pos h0]
      have hk0 : k = 0 := by
        by_contra hne
        have := hmin 0 (by omega)
        rw [show fro + (i + ((0 : Nat) : Int)) = fro + i from by push_cast; ring] at this
        rw [h0] at this
        exact Bool.noConfusion this
      subst hk0
      rw [show fro + (i + ((0 : Nat) : Int)) = fro + i from by push_cast; ring]
    · rw [if_neg h0]
      cases k with
      | zero =>
        exfalso
        rw [show fro + (i + ((0 : Nat) : Int)) = fro + i from by push_cast; ring] at he
        exact h0 he
      | succ k =>
        have he' : bidEligible room ((fro + (i + 1 + (k : Int))).tmod room.Seats) = true := by
          rw [show fro + (i + 1 + (k : Int)) = fro + (i + ((k + 1 : Nat) : Int)) from by
            push_cast; ring]
          exact he
        have hmin' : ∀ j : Nat, j < k →
            bidEligible room ((fro + (i + 1 + (j : Int))).tmod room.Seats) = false := by
          intro j hj
          rw [show fro + (i + 1 + (j : Int)) = fro + (i + ((j + 1 : Nat) : Int)) from by
            push_cast; ring]
          exact hmin (j + 1) (by omega)
        rw [show fro + (i + ((k + 1 : Nat) : Int)) = fro + (i + 1 + (k : Int)) from by
          push_cast; ring]
        exact ih (i + 1) k (by omega) he' hmin'

/-- A 3-seat fully occupied room in the bidding phase with no bid yet. -/
def cBidRoom : Room :=
  { emptyRoom with
    Seats := 3,
    PlayerIDs := fun s => if s = 0 then "p0" else if s = 1 then "p1" else
      if s = 2 then "p2" else "",
    Phase := "bidding", Actor := 0, BestBid := 0, BestBy := -1 }

/-- Claim C4 (confirmed): a bid changes the room only when the acting seat
equals `Actor` and the bid strictly exceeds `BestBid`; `BestBid` never
decreases (a pass leaves it unchanged, too); an accepted bid sets
`BestBid`/`BestBy` to the bid and the seat and moves `Actor` to
`nextActiveBidder`, which is the first occupied, unpassed seat after the
bidder in seat order (last conjunct). -/
theorem mulatschak_bid_rule (room : Room) (seat bid : Int) :
    (handleBid room seat bid ≠ room → seat = room.Actor ∧ room.BestBid < bid) ∧
    room.BestBid ≤ (handleBid room seat bid).BestBid ∧
    (handlePass room seat).BestBid = room.BestBid ∧
    (room.Phase = "bidding" → seat = room.Actor → 1 ≤ bid → bid ≤ 5 → room.BestBid < bid →
      (handleBid room seat bid).BestBid = bid ∧ (handleBid room seat bid).BestBy = seat ∧
      (handleBid room seat bid).Actor = nextActiveBidder room seat) ∧
    (∀ k : Nat, k < room.Seats.toNat →
      bidEligible room ((seat + (1 + (k : Int))).tmod room.Seats) = true →
      (∀ j : Nat, j < k → bidEligible room ((seat + (1 + (j : Int))).tmod room.Seats) = false) →
      nextActiveBidder room seat = (seat + (1 + (k : Int))).tmod room.Seats) := by
  refine ⟨?_, ?_, ?_, ?_, ?_⟩
  · intro hne
    by_cases h1 : room.Phase = "bidding" ∧ seat = room.Actor
    · by_cases h2 : 1 ≤ bid ∧ bid ≤ 5 ∧ bid > room.BestBid
      · exact ⟨h1.2, h2.2.2⟩
      · exact absurd (by rw [handleBid, if_pos h1, if_neg h2]) hne
    · exact absurd (by rw [handleBid, if_neg h1]) hne
  · by_cases h1 : room.Phase = "bidding" ∧ seat = room.Actor
    · by_cases h2 : 1 ≤ bid ∧ bid ≤ 5 ∧ bid > room.BestBid
      · rw [handleBid, if_pos h1, if_pos h2]
        exact le_of_lt h2.2.2
      · rw [handleBid, if_pos h1, if_neg h2]
    · rw [handleBid, if_neg h1]
  · unfold handlePass
    split
    · split
      · unfold passResolve
        split <;> rfl
      · rfl
    · rfl
  · intro hph hact hb1 hb5 hlt
    rw [handleBid, if_pos ⟨hph, hact⟩, if_pos ⟨hb1, hb5, hlt⟩]
    exact ⟨rfl, rfl, rfl⟩
  · intro k hk he hmin
    exact nextActiveBidderAux_first room seat room.Seats.toNat 1 k hk he hmin

/-- Claim C4 witness: seat 0 bids 2 in a fresh 3-seat auction; the bid is
accepted, `BestBid`/`BestBy` are set and the actor advances to seat 1, the
first unpassed occupied seat after the bidder. -/
theorem mulatschak_bid_rule_witness :
    cBidRoom.Phase = "bidding" ∧ (0 : Int) = cBidRoom.Actor ∧ cBidRoom.BestBid < 2 ∧
      ((handleBid cBidRoom 0 2).BestBid = 2 ∧ (handleBid cBidRoom 0 2).BestBy = 0 ∧
        (handleBid cBidRoom 0 2).Actor = nextActiveBidder cBidRoom 0) ∧
      nextActiveBidder cBidRoom 0 = (0 + (1 + ((0 : Nat) : Int))).tmod cBidRoom.Seats :=
  ⟨rfl, rfl, by decide,
    (mulatschak_bid_rule cBidRoom 0 2).2.2.2.1 rfl rfl (by decide) (by decide) (by decide),
    (mulatschak_bid_rule cBidRoom 0 2).2.2.2.2 0 (by decide) (by decide)
      (fun j hj => absurd hj (by omega))⟩

/-- A 2-seat fully occupied bidding room where seat 0 holds the best bid 2
and seat 1 is about to pass, which ends the auction. -/
def cPassRoom : Room :=
  { emptyRoom with
    Seats := 2,
    PlayerIDs := fun s => if s = 0 then "p0" else if s = 1 then "p1" else "",
    Phase := "bidding", Actor := 1, BestBid := 2, BestBy := 0 }

/-- Claim C5 (confirmed): when a pass ends the auction (one unpassed
occupied seat remains and a best bid exists), a winning bid of 1 fixes
trump to hearts and moves straight to the exchange phase, any other
winning bid moves to `pick_trump`; in both cases the winning bidder
(`BestBy`) becomes the actor. -/
theorem mulatschak_auction_end (room : Room) (seat : Int)
    (hph : room.Phase = "bidding") (hnp : room.Passed seat = false)
    (hone : countActive room (Function.update room.Passed seat true) = 1)
    (hbb : room.BestBy ≠ -1) :
    (room.BestBid = 1 → (handlePass room seat).Phase = "exchange" ∧
      (handlePass room seat).Trump = "hearts" ∧ (handlePass room seat).Actor = room.BestBy) ∧
    (room.BestBid ≠ 1 → (handlePass room seat).Phase = "pick_trump" ∧
      (handlePass room seat).Actor = room.BestBy ∧
      (handlePass room seat).Trump = room.Trump) := by
  have hg : room.Phase = "bidding" ∧ ¬room.Passed seat := ⟨hph, by simp [hnp]⟩
  rw [handlePass, if_pos hg, if_pos ⟨hone, hbb⟩]
  constructor
  · intro h1
    rw [passResolve, if_pos h1]
    exact ⟨rfl, rfl, rfl⟩
  · intro h1
    rw [passResolve, if_neg h1]
    exact ⟨rfl, rfl, rfl⟩

/-- Claim C5 witness: in `cPassRoom` the pass of seat 1 leaves only seat 0
unpassed; the winning bid is 2, so the room moves to `pick_trump` with
actor 0. -/
theorem mulatschak_auction_end_witness :
    cPassRoom.Phase = "bidding" ∧ cPassRoom.Passed 1 = false ∧
      countActive cPassRoom (Function.update cPassRoom.Passed 1 true) = 1 ∧
      cPassRoom.BestBy ≠ -1 ∧
      ((handlePass cPassRoom 1).Phase = "pick_trump" ∧
        (handlePass cPassRoom 1).Actor = cPassRoom.BestBy ∧
        (handlePass cPassRoom 1).Trump = cPassRoom.Trump) :=
  ⟨rfl, rfl, by decide, by decide,
    (mulatschak_auction_end cPassRoom 1 rfl rfl (by decide) (by decide)).2 (by decide)⟩

/-- A 3-seat fully occupied bidding room with actor 0 and nobody passed. -/
def c8Room : Room :=
  { emptyRoom with
    Seats := 3,
    PlayerIDs := fun s => if s = 0 then "q0" else if s = 1 then "q1" else
      if s = 2 then "q2" else "",
    Phase := "bidding", Actor := 0, BestBid := 0, BestBy := -1 }

/-- Claim C8, counterexample: the `"pass"` guard checks only the phase and
the not-already-passed flag, never `Actor`.  In `c8Room` the actor is seat
0, yet a pass sent by seat 1 is applied: seat 1 is marked passed, so the
room state changes, contradicting "a pass from any seat other than actor is
rejected with the room state unchanged". -/
theorem pass_from_non_actor_applied :
    c8Room.Actor = 0 ∧ (1 : Int) ≠ c8Room.Actor ∧ c8Room.Passed 1 = false ∧
      (handlePass c8Room 1).Passed 1 = true := by decide

/-- Claim C8 (corrected/amended): a pass is applied exactly when the phase
is bidding and the seat has not already passed — the acting seat need not
equal `Actor`; an applied pass marks the seat passed; any other pass (wrong
phase or already passed) leaves the room unchanged. -/
theorem mulatschak_pass_rule (room : Room) (seat : Int) :
    (¬(room.Phase = "bidding" ∧ ¬room.Passed seat) → handlePass room seat = room) ∧
    (room.Phase = "bidding" → room.Passed seat = false →
      (handlePass room seat).Passed = Function.update room.Passed seat true) := by
  constructor
  · intro hg
    rw [handlePass, if_neg hg]
  · intro hph hnp
    have hg : room.Phase = "bidding" ∧ ¬room.Passed seat := ⟨hph, by simp [hnp]⟩
    rw [handlePass, if_pos hg]
    split
    · unfold passResolve
      split <;> rfl
    · rfl

/-- Claim C8 witness: in `c8Room`, phase is bidding and seat 1 has not
passed, so its pass is recorded in the `Passed` map. -/
theorem mulatschak_pass_rule_witness :
    c8Room.Phase = "bidding" ∧ c8Room.Passed 1 = false ∧
      (handlePass c8Room 1).Passed = Function.update c8Room.Passed 1 true :=
  ⟨rfl, rfl, (mulatschak_pass_rule c8Room 1).2 rfl rfl⟩

/-- A 3-seat play-phase room with trump hearts, lead spades, and the trick
`[(spades,king) by 0, (hearts,ace) by 1]`; seat 2 is to play its last card,
the spades ace, completing the trick. -/
def c2Room : Room :=
  { emptyRoom with
    Seats := 3,
    PlayerIDs := fun s => if s = 0 then "r0" else if s = 1 then "r1" else
      if s = 2 then "r2" else "",
    Phase := "play", Started := true, Turn := 2, Trump := "hearts", Lead := "spades",
    Trick := [⟨"spades", "king"⟩, ⟨"hearts", "ace"⟩], TrickBy := [0, 1],
    Hands := fun s => if s = 2 then [⟨"spades", "ace"⟩] else [] }

/-- Claim C2, code bug: on the cited trick (trump hearts, lead spades,
cards (spades,king) by seat 0, (hearts,ace) by seat 1, (spades,ace) by
seat 2) the hub.go trick engine `trickWinner` returns seat 1, as the claim
states; but the exchange-phase hub variant resolves the completed trick
with the placeholder `winner := room.TrickBy[0]` (its own comment reads
"TODO: real trick winner; placeholder = first") and hands the turn to
seat 0 instead. -/
theorem trick_winner_placeholder_bug :
    trickWinner [⟨"spades", "king"⟩, ⟨"hearts", "ace"⟩, ⟨"spades", "ace"⟩] [0, 1, 2]
      "hearts" "spades" = 1 ∧
    (handleMove c2Room 2 ⟨"spades", "ace"⟩).Turn = 0 ∧
    (handleMove c2Room 2 ⟨"spades", "ace"⟩).Trick = [] := by decide

/-- A 3-seat play-phase room with trump clubs, diamonds led by seat 0; seat
1 holds a diamond (the king) and an off-suit heart. -/
def c3Room : Room :=
  { emptyRoom with
    Seats := 3,
    PlayerIDs := fun s => if s = 0 then "s0" else if s = 1 then "s1" else
      if s = 2 then "s2" else "",
    Phase := "play", Started := true, Turn := 1, Trump := "clubs", Lead := "diamonds",
    Trick := [⟨"diamonds", "nine"⟩], TrickBy := [0],
    Hands := fun s => if s = 0 then [⟨"spades", "eight"⟩]
      else if s = 1 then [⟨"diamonds", "king"⟩, ⟨"hearts", "seven"⟩]
      else if s = 2 then [⟨"spades", "nine"⟩] else [] }

/-- Claim C3, code bug: seat 1 holds the led suit (diamonds, per hub.go's
`hasSuit`) and plays the off-suit (hearts,seven), which `followsSuit`
rejects — yet the exchange-phase hub variant's play handler performs no
follow-suit check at all and applies the move: the heart leaves the hand
and joins the trick, so the state changes instead of being rejected. -/
theorem follow_suit_check_missing :
    hasSuit (c3Room.Hands 1) c3Room.Lead c3Room.Trump = true ∧
    followsSuit ⟨"hearts", "seven"⟩ c3Room.Lead c3Room.Trump = false ∧
    (handleMove c3Room 1 ⟨"hearts", "seven"⟩).Hands 1 = [⟨"diamonds", "king"⟩] ∧
    (handleMove c3Room 1 ⟨"hearts", "seven"⟩).Trick
      = [⟨"diamonds", "nine"⟩, ⟨"hearts", "seven"⟩] := by decide

/-- A 3-seat play-phase room with trump hearts and an empty trick; seat 0
is about to lead with the Weli. -/
def c9Room : Room :=
  { emptyRoom with
    Seats := 3,
    PlayerIDs := fun s => if s = 0 then "t0" else if s = 1 then "t1" else
      if s = 2 then "t2" else "",
    Phase := "play", Started := true, Turn := 0, Trump := "hearts",
    Hands := fun s => if s = 0 then [⟨"diamonds", "weli"⟩, ⟨"clubs", "seven"⟩]
      else if s = 1 then [⟨"spades", "ten"⟩] else if s = 2 then [⟨"clubs", "nine"⟩] else [] }

/-- Claim C9, code bug: hub.go's move handler sets the lead of a trick
opened by the Weli to the trump suit (here hearts), as the claim states;
the exchange-phase hub variant instead copies the first card's printed
suit, so leading the Weli under trump hearts records lead "diamonds". -/
theorem weli_lead_not_trump :
    leadOnFirstCard ⟨"diamonds", "weli"⟩ c9Room.Trump = "hearts" ∧
    (handleMove c9Room 0 ⟨"diamonds", "weli"⟩).Lead = "diamonds" ∧
    c9Room.Trump = "hearts" := by decide

theorem countsList_update (H : Int → List Card) (t : Int) (h2 : List Card)
    (hlen : h2.length = (H t).length) :
    ∀ n : Nat, countsList (Function.update H t h2) n = countsList H n := by
  intro n
  induction n with
  | zero => rfl
  | succ n ih =>
    rw [countsList, countsList, ih]
    by_cases ht : ((n : Int)) = t
    · rw [ht, Function.update_same, hlen]
    · rw [Function.update_noteq ht]

/-- Claim C7 (confirmed): the snapshot sent to seat `s` carries other
seats' hands only through their sizes: replacing another seat's hand by any
hand of the same size yields the identical snapshot; and `cutPeek` is
non-null only during the cut phase and only for the first bidder. -/
theorem projection_hides_hidden_hands (nameOf : Int → String) (room : Room) (s t : Int)
    (h2 : List Card) (hts : t ≠ s) (hlen : h2.length = (room.Hands t).length) :
    sendStateTo nameOf { room with Hands := Function.update room.Hands t h2 } s
      = sendStateTo nameOf room s ∧
    (∀ (r : Room) (s' : Int), (sendStateTo nameOf r s').cutPeek ≠ none →
      r.Phase = "cut" ∧ s' = r.FirstBidder) := by
  constructor
  · have hyou : Function.update room.Hands t h2 s = room.Hands s :=
      Function.update_noteq (Ne.symm hts) _ _
    have hcounts := countsList_update room.Hands t h2 hlen room.Seats.toNat
    simp only [sendStateTo]
    rw [hyou, hcounts]
  · intro r s' hcp
    simp only [sendStateTo] at hcp
    by_cases hc : r.Phase = "cut" ∧ s' = r.FirstBidder ∧ r.HasCutPeek
    · exact ⟨hc.1, hc.2.1⟩
    · rw [if_neg hc] at hcp
      exact absurd rfl hcp

/-- A 3-seat room in the cut phase, first bidder seat 0 with the cut peek
set; seat 1 holds one hidden card. -/
def c7Room : Room :=
  { emptyRoom with
    Seats := 3,
    PlayerIDs := fun s => if s = 0 then "u0" else if s = 1 then "u1" else
      if s = 2 then "u2" else "",
    Phase := "cut", FirstBidder := 0, Actor := 0, HasCutPeek := true,
    CutPeek := ⟨"hearts", "ace"⟩,
    Hands := fun s => if s = 1 then [⟨"clubs", "ten"⟩] else [] }

/-- Claim C7 witness: swapping seat 1's hidden card for another card leaves
seat 0's snapshot unchanged, and seat 0's snapshot (cut phase, first
bidder) indeed carries a non-null cut peek. -/
theorem projection_hides_hidden_hands_witness :
    (1 : Int) ≠ 0 ∧ ([(⟨"spades", "king"⟩ : Card)] : List Card).length = (c7Room.Hands 1).length ∧
    sendStateTo (fun _ => "") { c7Room with
        Hands := Function.update c7Room.Hands 1 [⟨"spades", "king"⟩] } 0
      = sendStateTo (fun _ => "") c7Room 0 ∧
    ((sendStateTo (fun _ => "") c7Room 0).cutPeek ≠ none →
      c7Room.Phase = "cut" ∧ (0 : Int) = c7Room.FirstBidder) :=
  ⟨by decide, by decide,
    (projection_hides_hidden_hands (fun _ => "") c7Room 0 1 [⟨"spades", "king"⟩]
      (by decide) (by decide)).1,
    (projection_hides_hidden_hands (fun _ => "") c7Room 0 1 [⟨"spades", "king"⟩]
      (by decide) (by decide)).2 c7Room 0⟩

/-- The swamp list the draw loop actually consumes: shuffled by `sh` exactly
when a swamp draw is about to happen (`k` cards still needed, swamp
nonempty) and the one-time shuffle has not run yet. -/
def swampSrcFor (sh : List Card → List Card) (room : Room) (swamp1 : List Card)
    (k : Nat) : List Card :=
  if k > 0 ∧ swamp1 ≠ [] ∧ ¬room.swampShuffled then sh swamp1 else swamp1

/-- The list `swampSrcFor` yields for the post-discard swamp of an exchange
request and its remaining need. -/
def exchangeSwampSrc (sh : List Card → List Card) (room : Room) (seat : Int)
    (cards : List Card) : List Card :=
  swampSrcFor sh room (discardAll (room.Hands seat, room.swamp) cards).2
    (cards.length - min cards.length room.stock.length)

theorem exchangeDrawTalon_eq (sh : List Card → List Card) (room : Room) (swamp1 : List Card)
    (hand2 stock2 : List Card) (k : Nat) :
    exchangeDrawTalon sh room swamp1 (hand2, stock2, k)
      = (hand2 ++ (swampSrcFor sh room swamp1 k).take k, stock2,
         (swampSrcFor sh room swamp1 k).drop k,
         if k > 0 ∧ swamp1 ≠ [] then true else room.swampShuffled) := by
  unfold exchangeDrawTalon swampSrcFor
  by_cases hbr : k > 0 ∧ swamp1 ≠ []
  · rw [if_pos (show (hand2, stock2, k).2.2 > 0 ∧ swamp1 ≠ [] from hbr), if_pos hbr]
    by_cases hshf : room.swampShuffled
    · have h1 : (if ¬room.swampShuffled then sh swamp1 else swamp1) = swamp1 :=
        if_neg (by simp [hshf])
      have h2 : (if k > 0 ∧ swamp1 ≠ [] ∧ ¬room.swampShuffled then sh swamp1 else swamp1)
          = swamp1 := if_neg (by simp [hshf])
      rw [h1, h2, drawFrom_eq]
    · have h1 : (if ¬room.swampShuffled then sh swamp1 else swamp1) = sh swamp1 :=
        if_pos (by simp [hshf])
      have h2 : (if k > 0 ∧ swamp1 ≠ [] ∧ ¬room.swampShuffled then sh swamp1 else swamp1)
          = sh swamp1 := if_pos ⟨hbr.1, hbr.2, by simp [hshf]⟩
      rw [h1, h2, drawFrom_eq]
  · rw [if_neg (show ¬((hand2, stock2, k).2.2 > 0 ∧ swamp1 ≠ []) from hbr), if_neg hbr]
    have h2 : (if k > 0 ∧ swamp1 ≠ [] ∧ ¬room.swampShuffled then sh swamp1 else swamp1)
        = swamp1 := if_neg (fun h => hbr ⟨h.1, h.2.1⟩)
    rw [h2]
    rcases Decidable.not_and_iff_or_not.mp hbr with hk | hsw
    · have hk0 : k = 0 := by omega
      subst hk0
      simp
    · have hsw0 : swamp1 = [] := Decidable.not_not.mp hsw
      subst hsw0
      simp

theorem exchangeDraw_eq (sh : List Card → List Card) (room : Room)
    (hand1 swamp1 : List Card) (n : Nat) :
    exchangeDraw sh room hand1 swamp1 n
      = (hand1 ++ room.stock.take n
           ++ (swampSrcFor sh room swamp1 (n - min n room.stock.length)).take
               (n - min n room.stock.length),
         room.stock.drop n,
         (swampSrcFor sh room swamp1 (n - min n room.stock.length)).drop
           (n - min n room.stock.length),
         if (n - min n room.stock.length) > 0 ∧ swamp1 ≠ [] then true
         else room.swampShuffled) := by
  unfold exchangeDraw
  rw [drawFrom_eq, exchangeDrawTalon_eq]

theorem advance_fields (r : Room) :
    (advanceExchangeOrStartPlay r).stock = r.stock ∧
    (advanceExchangeOrStartPlay r).Hands = r.Hands ∧
    (advanceExchangeOrStartPlay r).swamp = r.swamp ∧
    (advanceExchangeOrStartPlay r).swampShuffled = r.swampShuffled := by
  unfold advanceExchangeOrStartPlay
  split
  · exact ⟨rfl, rfl, rfl, rfl⟩
  · split <;> exact ⟨rfl, rfl, rfl, rfl⟩

theorem exchangeApply_fields (sh : List Card → List Card) (room : Room) (seat : Int)
    (hand1 swamp1 : List Card) (n : Nat) :
    (exchangeApply sh room seat hand1 swamp1 n).stock
        = (exchangeDraw sh room hand1 swamp1 n).2.1 ∧
    (exchangeApply sh room seat hand1 swamp1 n).Hands
        = Function.update room.Hands seat (exchangeDraw sh room hand1 swamp1 n).1 ∧
    (exchangeApply sh room seat hand1 swamp1 n).swamp
        = (exchangeDraw sh room hand1 swamp1 n).2.2.1 ∧
    (exchangeApply sh room seat hand1 swamp1 n).swampShuffled
        = (exchangeDraw sh room hand1 swamp1 n).2.2.2 := by
  unfold exchangeApply
  exact ⟨(advance_fields _).1, (advance_fields _).2.1, (advance_fields _).2.2.1,
    (advance_fields _).2.2.2⟩

theorem exchangeDrawTalon_shuffled (sh sh' : List Card → List Card) (room : Room)
    (swamp1 : List Card) (t : List Card × List Card × Nat)
    (hshf : room.swampShuffled = true) :
    exchangeDrawTalon sh room swamp1 t = exchangeDrawTalon sh' room swamp1 t := by
  unfold exchangeDrawTalon
  have h1 : (if ¬room.swampShuffled then sh swamp1 else swamp1) = swamp1 :=
    if_neg (by simp [hshf])
  have h2 : (if ¬room.swampShuffled then sh' swamp1 else swamp1) = swamp1 :=
    if_neg (by simp [hshf])
  rw [h1, h2]

theorem handleExchange_shuffled (sh sh' : List Card → List Card) (room : Room) (seat : Int)
    (cards : List Card) (hshf : room.swampShuffled = true) :
    handleExchange sh room seat cards = handleExchange sh' room seat cards := by
  unfold handleExchange
  split
  · split
    · unfold exchangeApply exchangeDraw
      rw [exchangeDrawTalon_shuffled sh sh' room
        (discardAll (room.Hands seat, room.swamp) cards).2
        (drawFrom cards.length room.stock (discardAll (room.Hands seat, room.swamp) cards).1)
        hshf]
    · rfl
  · rfl

/-- Claim C6 (confirmed): an accepted exchange of `n` requested cards draws
replacements from the talon first (`stock.take n` joins the hand, the stock
keeps `stock.drop n`); only the remaining need `k = n - min n |stock|`
touches the swamp, which is consumed from the list `exchangeSwampSrc` —
the swamp shuffled exactly when a swamp draw happens and `swampShuffled`
was still false — and `swampShuffled` is set exactly then; the total drawn
is `min n (|talon| + |swamp|)`, so an unmet remainder simply stays unmet;
and once `swampShuffled` is set, the handler's result does not depend on
the shuffle at all (no re-shuffle ever happens). -/
theorem mulatschak_exchange_draw_rule (sh : List Card → List Card) (room : Room) (seat : Int)
    (cards : List Card)
    (hsh : ∀ l : List Card, ((sh l : Multiset Card)) = (l : Multiset Card))
    (hg : room.Phase = "exchange" ∧ seat = room.Actor ∧ ¬room.Acted seat ∧ ¬room.Stayed seat)
    (hn : 1 ≤ cards.length ∧ (cards.length : Int) ≤ room.exchangeMax) :
    (handleExchange sh room seat cards).stock = room.stock.drop cards.length ∧
    (handleExchange sh room seat cards).Hands seat
      = (discardAll (room.Hands seat, room.swamp) cards).1 ++ room.stock.take cards.length
          ++ (exchangeSwampSrc sh room seat cards).take
              (cards.length - min cards.length room.stock.length) ∧
    (handleExchange sh room seat cards).swamp
      = (exchangeSwampSrc sh room seat cards).drop
          (cards.length - min cards.length room.stock.length) ∧
    (handleExchange sh room seat cards).swampShuffled
      = (if cards.length - min cards.length room.stock.length > 0
            ∧ (discardAll (room.Hands seat, room.swamp) cards).2 ≠ [] then true
         else room.swampShuffled) ∧
    ((handleExchange sh room seat cards).Hands seat).length
      = (discardAll (room.Hands seat, room.swamp) cards).1.length
          + min cards.length
              (room.stock.length + (discardAll (room.Hands seat, room.swamp) cards).2.length) ∧
    (room.swampShuffled = true → ∀ sh' : List Card → List Card,
      handleExchange sh room seat cards = handleExchange sh' room seat cards) := by
  have hun : handleExchange sh room seat cards
      = exchangeApply sh room seat (discardAll (room.Hands seat, room.swamp) cards).1
          (discardAll (room.Hands seat, room.swamp) cards).2 cards.length := by
    rw [handleExchange, if_pos hg, if_pos hn]
  obtain ⟨hst, hha, hsw, hsf⟩ := exchangeApply_fields sh room seat
    (discardAll (room.Hands seat, room.swamp) cards).1
    (discardAll (room.Hands seat, room.swamp) cards).2 cards.length
  rw [exchangeDraw_eq] at hst hha hsw hsf
  have h2 := congrFun hha seat
  rw [Function.update_same] at h2
  refine ⟨?_, ?_, ?_, ?_, ?_, ?_⟩
  · rw [hun]; exact hst
  · rw [hun]; exact h2
  · rw [hun]; exact hsw
  · rw [hun]; exact hsf
  · rw [hun, h2]
    rw [List.length_append, List.length_append, List.length_take, List.length_take]
    have hsrc : (swampSrcFor sh room (discardAll (room.Hands seat, room.swamp) cards).2
        (cards.length - min cards.length room.stock.length)).length
        = (discardAll (room.Hands seat, room.swamp) cards).2.length := by
      unfold swampSrcFor
      split
      · have := congrArg Multiset.card (hsh (discardAll (room.Hands seat, room.swamp) cards).2)
        simpa [Multiset.coe_card] using this
      · rfl
    rw [hsrc]
    omega
  · intro hshf sh'
    exact handleExchange_shuffled sh sh' room seat cards hshf

/-- A 2-seat exchange-phase room: seat 0 (the declarer and actor) holds
five clubs, the talon holds a single card, the swamp is empty and not yet
shuffled. -/
def c6Room : Room :=
  { emptyRoom with
    Seats := 2,
    PlayerIDs := fun s => if s = 0 then "v0" else if s = 1 then "v1" else "",
    Phase := "exchange", Actor := 0, BestBy := 0, exchangeMax := 3,
    Hands := fun s => if s = 0 then
        [⟨"clubs", "seven"⟩, ⟨"clubs", "eight"⟩, ⟨"clubs", "nine"⟩,
         ⟨"clubs", "ten"⟩, ⟨"clubs", "ace"⟩]
      else [⟨"spades", "seven"⟩],
    stock := [⟨"hearts", "king"⟩], swamp := [], swampShuffled := false }

/-- Seat 0's exchange request in `c6Room`: three of its clubs. -/
def c6Cards : List Card := [⟨"clubs", "seven"⟩, ⟨"clubs", "eight"⟩, ⟨"clubs", "nine"⟩]

/-- Claim C6 witness: requesting 3 replacements with a 1-card talon draws
that card first and continues from the (one-time shuffled) swamp. -/
theorem mulatschak_exchange_draw_rule_witness :
    (c6Room.Phase = "exchange" ∧ (0 : Int) = c6Room.Actor ∧ ¬c6Room.Acted 0 ∧
        ¬c6Room.Stayed 0) ∧
    (1 ≤ c6Cards.length ∧ (c6Cards.length : Int) ≤ c6Room.exchangeMax) ∧
    (handleExchange id c6Room 0 c6Cards).stock = c6Room.stock.drop c6Cards.length ∧
    (handleExchange id c6Room 0 c6Cards).swamp
      = (exchangeSwampSrc id c6Room 0 c6Cards).drop
          (c6Cards.length - min c6Cards.length c6Room.stock.length) :=
  ⟨by decide, by decide,
    (mulatschak_exchange_draw_rule id c6Room 0 c6Cards (fun l => rfl)
      (by decide) (by decide)).1,
    (mulatschak_exchange_draw_rule id c6Room 0 c6Cards (fun l => rfl)
      (by decide) (by decide)).2.2.1⟩

theorem discardAll_nomatch (cards : List Card) : ∀ (hand swamp : List Card),
    (∀ c ∈ cards, findRemove (cardMatches c) hand = none) →
    discardAll (hand, swamp) cards = (hand, swamp) := by
  induction cards with
  | nil => intro hand swamp _; rfl
  | cons c rest ih =>
    intro hand swamp h
    simp only [discardAll]
    rw [h c (List.mem_cons_self c rest)]
    exact ih hand swamp (fun x hx => h x (List.mem_cons_of_mem c hx))

/-- Claim C10 (confirmed): an accepted exchange whose listed cards are all
absent from the seat's hand discards nothing, yet replacements are still
drawn for the full requested count; with enough talon the hand grows by
exactly `cards.length`, so a 5-card hand ends up with more than 5 cards. -/
theorem exchange_phantom_discard (sh : List Card → List Card) (room : Room) (seat : Int)
    (cards : List Card)
    (hg : room.Phase = "exchange" ∧ seat = room.Actor ∧ ¬room.Acted seat ∧ ¬room.Stayed seat)
    (hn : 1 ≤ cards.length ∧ (cards.length : Int) ≤ room.exchangeMax)
    (hnone : ∀ c ∈ cards, findRemove (cardMatches c) (room.Hands seat) = none)
    (hstock : cards.length ≤ room.stock.length) :
    (handleExchange sh room seat cards).Hands seat
      = room.Hands seat ++ room.stock.take cards.length ∧
    ((handleExchange sh room seat cards).Hands seat).length
      = (room.Hands seat).length + cards.length := by
  have hds := discardAll_nomatch cards (room.Hands seat) room.swamp hnone
  have hun : handleExchange sh room seat cards
      = exchangeApply sh room seat (room.Hands seat) room.swamp cards.length := by
    rw [handleExchange, if_pos hg, if_pos hn, hds]
  obtain ⟨-, hha, -, -⟩ := exchangeApply_fields sh room seat (room.Hands seat) room.swamp
    cards.length
  rw [exchangeDraw_eq] at hha
  have hk : cards.length - min cards.length room.stock.length = 0 := by omega
  rw [hk] at hha
  have h2 := congrFun hha seat
  rw [Function.update_same] at h2
  rw [hun, h2, List.take_zero, List.append_nil]
  constructor
  · rfl
  · rw [List.length_append, List.length_take]
    omega

/-- A 2-seat exchange-phase room: seat 0 (the actor) holds five clubs and
the talon holds three hearts. -/
def c10Room : Room :=
  { emptyRoom with
    Seats := 2,
    PlayerIDs := fun s => if s = 0 then "w0" else if s = 1 then "w1" else "",
    Phase := "exchange", Actor := 0, BestBy := 0, exchangeMax := 3,
    Hands := fun s => if s = 0 then
        [⟨"clubs", "seven"⟩, ⟨"clubs", "eight"⟩, ⟨"clubs", "nine"⟩,
         ⟨"clubs", "ten"⟩, ⟨"clubs", "ace"⟩]
      else [⟨"spades", "seven"⟩],
    stock := [⟨"hearts", "king"⟩, ⟨"hearts", "ten"⟩, ⟨"hearts", "nine"⟩] }

/-- Seat 0's exchange request in `c10Room`: three aces it does not hold. -/
def c10Cards : List Card := [⟨"hearts", "ace"⟩, ⟨"spades", "ace"⟩, ⟨"diamonds", "ace"⟩]

/-- Claim C10 witness: requesting three cards the seat does not own leaves
the 5-card hand undischarged but still draws 3 from the talon — the hand
ends with 8 cards, more than the dealt 5. -/
theorem exchange_phantom_discard_witness :
    (∀ c ∈ c10Cards, findRemove (cardMatches c) (c10Room.Hands 0) = none) ∧
    c10Cards.length ≤ c10Room.stock.length ∧
    ((handleExchange id c10Room 0 c10Cards).Hands 0).length
      = (c10Room.Hands 0).length + c10Cards.length ∧
    (c10Room.Hands 0).length + c10Cards.length > 5 :=
  ⟨by decide, by decide,
    (exchange_phantom_discard id c10Room 0 c10Cards (by decide) (by decide)
      (by decide) (by decide)).2,
    by decide⟩
